import Mathlib

/-!
Verification of the movement-and-collision core of a side-scrolling
platformer written in Rust.

Shallow embedding conventions:
* `f64` and `f32` values are modelled as `ℚ` (exact arithmetic).
* `glm::pow` (used only to shape the jump impulse) is an opaque parameter
  `powf : ℚ → ℚ → ℚ` of the physics step; no verified property depends on
  its value.
* `glm::floor`/`glm::ceil` followed by `as i32` are modelled by `ratFloor`
  and `ratCeil` (mathematical floor/ceiling of a rational, as an integer).
* Fallible operations (`Rectangle::move_inside`, `intersection_depth`)
  return `Option`, exactly as the Rust `Option` results.
* The mutable per-frame state of `Player::update` is threaded explicitly;
  the tile data of the level is read-only throughout a frame.
-/

namespace Platformer

/-! ### Rectangle geometry, from src/phi/data.rs -/

structure Rectangle where
  x : ℚ
  y : ℚ
  w : ℚ
  h : ℚ
deriving DecidableEq, Repr

/-- Model of `Rectangle::move_inside` from src/phi/data.rs: fails when `self` is
larger than `parent` on either axis, otherwise clamps the position. -/
def Rectangle.move_inside (self parent : Rectangle) : Option Rectangle :=
  if parent.w < self.w ∨ parent.h < self.h then none
  else some
    { w := self.w
      h := self.h
      x := if self.x < parent.x then parent.x
           else if parent.x + parent.w ≤ self.x + self.w then parent.x + parent.w - self.w
           else self.x
      y := if self.y < parent.y then parent.y
           else if parent.y + parent.h ≤ self.y + self.h then parent.y + parent.h - self.h
           else self.y }

/-- Model of `Rectangle::contains` from src/phi/data.rs (inclusive edges). -/
def Rectangle.contains (self rect : Rectangle) : Bool :=
  decide (self.x ≤ rect.x ∧ rect.x ≤ self.x + self.w ∧
    self.x ≤ rect.x + rect.w ∧ rect.x + rect.w ≤ self.x + self.w ∧
    self.y ≤ rect.y ∧ rect.y ≤ self.y + self.h ∧
    self.y ≤ rect.y + rect.h ∧ rect.y + rect.h ≤ self.y + self.h)

/-- Model of `Rectangle::overlaps` from src/phi/data.rs (strict AABB overlap). -/
def Rectangle.overlaps (self other : Rectangle) : Bool :=
  decide (self.x < other.x + other.w ∧ other.x < self.x + self.w ∧
    self.y < other.y + other.h ∧ other.y < self.y + self.h)

/-- Model of `Rectangle::center` from src/phi/data.rs. -/
def Rectangle.center (self : Rectangle) : ℚ × ℚ :=
  (self.x + self.w / 2, self.y + self.h / 2)

/-- Model of `Rectangle::intersection_depth` from src/phi/data.rs: the signed
push-out vector computed by the center-distance method, `none` when the
rectangles do not intersect. -/
def Rectangle.intersection_depth (self other : Rectangle) : Option (ℚ × ℚ) :=
  let disX := (self.center).1 - (other.center).1
  let disY := (self.center).2 - (other.center).2
  let minX := (self.w + other.w) / 2
  let minY := (self.h + other.h) / 2
  if minX ≤ |disX| ∨ minY ≤ |disY| then none
  else some
    (if 0 < disX then minX - disX else -minX - disX,
     if 0 < disY then minY - disY else -minY - disY)

/-! ### Tile collision data, from src/phi/gfx.rs and src/views/game.rs -/

/-- Model of `TileCollision` from src/phi/gfx.rs: a fixed, closed set of three
tile behaviours. -/
inductive TileCollision where
  | Passable
  | Impassable
  | Platform
deriving DecidableEq, Repr

/-- The collision-relevant part of `GameLevel` from src/views/game.rs:
the tile classification grid and its dimensions in tiles. -/
structure GameLevel where
  tiles : List (List TileCollision)
  width : ℕ
  height : ℕ

/-- Model of `GameLevel::get_collision` from src/views/game.rs: vertical
out-of-bounds is `Passable`, horizontal out-of-bounds is `Impassable`,
otherwise the stored classification. -/
def GameLevel.get_collision (self : GameLevel) (x y : ℤ) : TileCollision :=
  if y < 0 ∨ (self.height : ℤ) ≤ y then TileCollision.Passable
  else if x < 0 ∨ (self.width : ℤ) ≤ x then TileCollision.Impassable
  else (self.tiles.getD y.toNat []).getD x.toNat TileCollision.Passable

/-! ### Floor and ceiling on ℚ, modelling glm::floor/ceil plus `as i32` -/

def ratFloor (q : ℚ) : ℤ := Rat.floor q

def ratCeil (q : ℚ) : ℤ := -Rat.floor (-q)

theorem ratFloor_eq (q : ℚ) : ratFloor q = ⌊q⌋ :=
  (Rat.floor_def' q).trans Rat.floor_def.symm

theorem ratCeil_eq (q : ℚ) : ratCeil q = ⌈q⌉ := by
  rw [ratCeil, show Rat.floor (-q) = ratFloor (-q) from rfl, ratFloor_eq,
    Int.floor_neg, neg_neg]

theorem ratFloor_eq_of (q : ℚ) (n : ℤ) (h1 : (n : ℚ) ≤ q) (h2 : q < n + 1) :
    ratFloor q = n := by
  rw [ratFloor_eq]
  exact Int.floor_eq_iff.2 ⟨h1, by exact_mod_cast h2⟩

theorem ratCeil_eq_of (q : ℚ) (n : ℤ) (h1 : (n : ℚ) - 1 < q) (h2 : q ≤ n) :
    ratCeil q = n := by
  rw [ratCeil_eq]
  exact Int.ceil_eq_iff.2 ⟨by exact_mod_cast h1, h2⟩

/-! ### Animated sprites, from src/phi/gfx.rs

Each `AnimatedSprite` owns its own `current_time` accumulator; only the
number of frames matters for the playback logic, so the frame list is
modelled by its length. -/

structure AnimatedSprite where
  frames : ℕ
  frame_delay : ℚ
  current_time : ℚ
  max_time : ℚ
deriving DecidableEq, Repr

/-- Model of `AnimatedSprite::new` from src/phi/gfx.rs. -/
def AnimatedSprite.new (n : ℕ) (frame_delay : ℚ) : AnimatedSprite :=
  { frames := n, frame_delay := frame_delay, current_time := 0,
    max_time := (n : ℚ) * frame_delay }

/-- Model of `AnimatedSprite::add_time` from src/phi/gfx.rs: adds `dt` and then
corrects the accumulator by at most one full cycle. -/
def AnimatedSprite.add_time (self : AnimatedSprite) (dt : ℚ) : AnimatedSprite :=
  let ct := self.current_time + dt
  if ct < 0 then { self with current_time := ct + self.max_time }
  else if self.max_time ≤ ct then { self with current_time := ct - self.max_time }
  else { self with current_time := ct }

/-- The frame index computed by `AnimatedSprite::render` in
src/phi/gfx.rs: `(current_time / frame_delay) as usize % frames`.
The `as usize` cast saturates negatives to 0, which `Int.toNat` of the
floor reproduces. -/
def AnimatedSprite.currentFrame (self : AnimatedSprite) : ℕ :=
  (ratFloor (self.current_time / self.frame_delay)).toNat % self.frames

/-! ### Player physics constants, from src/views/game.rs -/

def TILE_WIDTH : ℚ := 40
def TILE_HEIGHT : ℚ := 32
def PLAYER_WIDTH : ℚ := 64
def PLAYER_HEIGHT : ℚ := 64
def PLAYER_MOVE_ACCEL : ℚ := 13000
def PLAYER_MAX_SPEED : ℚ := 1750
def PLAYER_GROUND_DRAG : ℚ := 48 / 100
def PLAYER_AIR_DRAG : ℚ := 58 / 100
def PLAYER_MAX_JUMP_TIME : ℚ := 35 / 100
def PLAYER_JUMP_LAUNCH_VEL : ℚ := -3500
def PLAYER_GRAVITY_ACCEL : ℚ := 3400
def PLAYER_MAX_FALL_SPEED : ℚ := 550
def PLAYER_JUMP_POWER : ℚ := 14 / 100

/-- The held-key snapshot consumed by `Player::update`
(src/phi/mod.rs, `struct_events!`). -/
structure Events where
  key_up : Bool
  key_down : Bool
  key_left : Bool
  key_right : Bool
deriving DecidableEq, Repr

/-- Model of `PlayerFrame` from src/views/game.rs. -/
inductive PlayerFrame where
  | Idle
  | Run
  | Jump
  | Celebrate
  | Die
deriving DecidableEq, Repr

/-- Model of `PlayerDirection` from src/views/game.rs. -/
inductive PlayerDirection where
  | Left
  | Right
deriving DecidableEq, Repr

/-- The mutable state of `Player` from src/views/game.rs.  The level is
passed to `update` separately (its collision data is read-only).  The
sprite vector indexed by `PlayerFrame` discriminants is modelled as a
function from `PlayerFrame`. -/
structure Player where
  posX : ℚ
  posY : ℚ
  velX : ℚ
  velY : ℚ
  on_ground : Bool
  is_jumping : Bool
  jump_time : ℚ
  previous_bottom : ℚ
  sprites : PlayerFrame → AnimatedSprite
  current : PlayerFrame
  direction : PlayerDirection

/-- The horizontal input intent `dx` computed at the top of
`Player::update` (src/views/game.rs lines 320-326). -/
def dxInput (e : Events) : ℚ :=
  if e.key_left then -1 else if e.key_right then 1 else 0

/-- Model of `glm::clamp`. -/
def clamp (x lo hi : ℚ) : ℚ := min (max x lo) hi

/-- The gravity integration and clamp applied to `vel.y` in
`Player::update` (src/views/game.rs lines 331-335). -/
def velYAfterGravity (velY elapsed : ℚ) : ℚ :=
  clamp (velY + PLAYER_GRAVITY_ACCEL * elapsed)
    (-PLAYER_MAX_FALL_SPEED) PLAYER_MAX_FALL_SPEED

/-- The jump logic of `Player::update` (src/views/game.rs lines 337-352):
returns the new `vel.y` and the new `jump_time`. -/
def jumpStep (powf : ℚ → ℚ → ℚ) (e : Events) (elapsed velY jump_time : ℚ)
    (on_ground is_jumping : Bool) : ℚ × ℚ :=
  if e.key_up then
    let jt := if (is_jumping = false ∧ on_ground = true) ∨ 0 < jump_time
      then jump_time + elapsed else jump_time
    if 0 < jt ∧ jt ≤ PLAYER_MAX_JUMP_TIME then
      (PLAYER_JUMP_LAUNCH_VEL *
        (1 - powf (jt / PLAYER_MAX_JUMP_TIME) PLAYER_JUMP_POWER), jt)
    else (velY, 0)
  else (velY, 0)

/-- The complete per-frame `vel.x` computation of `Player::update`:
input acceleration, drag by the previous frame's grounded flag, and the
speed clamp (src/views/game.rs lines 330, 354-355). -/
def stepVelX (e : Events) (elapsed velX : ℚ) (on_ground : Bool) : ℚ :=
  clamp ((velX + dxInput e * PLAYER_MOVE_ACCEL * elapsed) *
      (if on_ground then PLAYER_GROUND_DRAG else PLAYER_AIR_DRAG))
    (-PLAYER_MAX_SPEED) PLAYER_MAX_SPEED

/-- The complete per-frame `vel.y` computation of `Player::update`:
gravity plus clamp, then the jump override; also returns the new
`jump_time`. -/
def stepVelY (powf : ℚ → ℚ → ℚ) (e : Events) (elapsed velY jump_time : ℚ)
    (on_ground is_jumping : Bool) : ℚ × ℚ :=
  jumpStep powf e elapsed (velYAfterGravity velY elapsed) jump_time
    on_ground is_jumping

/-- The tentative (pre-collision-resolution) x position of the frame. -/
def tentativeX (e : Events) (elapsed : ℚ) (p : Player) : ℚ :=
  p.posX + stepVelX e elapsed p.velX p.on_ground * elapsed

/-- The tentative (pre-collision-resolution) y position of the frame. -/
def tentativeY (powf : ℚ → ℚ → ℚ) (e : Events) (elapsed : ℚ) (p : Player) : ℚ :=
  p.posY +
    (stepVelY powf e elapsed p.velY p.jump_time p.on_ground p.is_jumping).1 *
    elapsed

/-- The world-space box of tile `(xth, yth)`, as tracked by `tile_bounds`
in the resolution loop of `Player::update`. -/
def tileBounds (xth yth : ℤ) : Rectangle :=
  { x := (xth : ℚ) * TILE_WIDTH, y := (yth : ℚ) * TILE_HEIGHT,
    w := TILE_WIDTH, h := TILE_HEIGHT }

/-- One iteration of the collision-resolution loop of `Player::update`
(src/views/game.rs lines 382-415).  The state is the working position
plus the accumulating `on_ground` flag; the working bounding box always
mirrors the working position in the source, so it is rebuilt from it. -/
def processTile (level : GameLevel) (previous_bottom : ℚ)
    (st : ℚ × ℚ × Bool) (t : ℤ × ℤ) : ℚ × ℚ × Bool :=
  let collision := level.get_collision t.1 t.2
  if collision ≠ TileCollision.Passable then
    match Rectangle.intersection_depth
        { x := st.1, y := st.2.1, w := PLAYER_WIDTH, h := PLAYER_HEIGHT }
        (tileBounds t.1 t.2) with
    | some d =>
      if |d.2| < |d.1| ∨ collision = TileCollision.Platform then
        let og := if previous_bottom ≤ (tileBounds t.1 t.2).y then true
          else st.2.2
        if collision = TileCollision.Impassable ∨ og = true then
          (st.1, st.2.1 + d.2, og)
        else (st.1, st.2.1, og)
      else if collision = TileCollision.Impassable then
        (st.1 + d.1, st.2.1, st.2.2)
      else st
    | none => st
  else st

def intRange (a b : ℤ) : List ℤ :=
  (List.range (b - a).toNat).map (fun i : ℕ => a + (i : ℤ))

/-- The row-major tile iteration order of the resolution loop:
`for yth in top..bottom { for xth in left..right { ... } }`. -/
def tilePairs (top bottom left right : ℤ) : List (ℤ × ℤ) :=
  (intRange top bottom).flatMap
    (fun y => (intRange left right).map (fun x => (x, y)))

/-- The inclusive tile footprint of the tentative bounding box
(src/views/game.rs lines 371-374). -/
def footprint (px py : ℚ) : List (ℤ × ℤ) :=
  tilePairs (ratFloor (py / TILE_HEIGHT))
    (ratCeil ((py + PLAYER_HEIGHT) / TILE_HEIGHT))
    (ratFloor (px / TILE_WIDTH))
    (ratCeil ((px + PLAYER_WIDTH) / TILE_WIDTH))

/-- The whole collision-resolution loop: `on_ground` is reset to `false`
and the working position is corrected tile by tile. -/
def resolveCollisions (level : GameLevel) (previous_bottom px py : ℚ) :
    ℚ × ℚ × Bool :=
  (footprint px py).foldl (processTile level previous_bottom) (px, py, false)

/-- Model of `Player::update` from src/views/game.rs (lines 313-442), physics and
animation-state part.  `powf` stands for `glm::pow`. -/
def Player.update (powf : ℚ → ℚ → ℚ) (level : GameLevel) (e : Events)
    (elapsed : ℚ) (p : Player) : Player :=
  let vx := stepVelX e elapsed p.velX p.on_ground
  let vyjt := stepVelY powf e elapsed p.velY p.jump_time p.on_ground p.is_jumping
  let px := p.posX + vx * elapsed
  let py := p.posY + vyjt.1 * elapsed
  let r := resolveCollisions level p.previous_bottom px py
  let dx := dxInput e
  let current :=
    if dx = 0 ∧ r.2.2 = true then PlayerFrame.Idle
    else if r.2.2 = false then PlayerFrame.Jump
    else PlayerFrame.Run
  { p with
    posX := r.1
    posY := r.2.1
    velX := if p.posX = r.1 then 0 else vx
    velY := if p.posY = r.2.1 then 0 else vyjt.1
    on_ground := r.2.2
    jump_time := vyjt.2
    previous_bottom := r.2.1 + PLAYER_HEIGHT
    current := current
    direction := if dx < 0 then PlayerDirection.Left
      else if 0 < dx then PlayerDirection.Right
      else p.direction
    sprites := fun f =>
      if f = current then (p.sprites f).add_time elapsed else p.sprites f }

/-! ### Supporting lemmas -/

theorem intRange_nodup (a b : ℤ) : (intRange a b).Nodup := by
  unfold intRange
  refine List.Nodup.map ?_ (List.nodup_range _)
  intro i j h
  simpa using h

theorem tilePairs_nodup (t b l r : ℤ) : (tilePairs t b l r).Nodup := by
  unfold tilePairs
  refine List.nodup_flatMap.2 ⟨?_, ?_⟩
  · intro y _
    refine List.Nodup.map ?_ (intRange_nodup l r)
    intro i j h
    simpa using h
  · refine (intRange_nodup t b).imp ?_
    intro y1 y2 hne
    simp only [Function.onFun, List.disjoint_left]
    rintro ⟨x, y⟩ h1 h2
    simp only [List.mem_map] at h1 h2
    obtain ⟨x1, _, e1⟩ := h1
    obtain ⟨x2, _, e2⟩ := h2
    apply hne
    rw [Prod.mk.injEq] at e1 e2
    rw [e1.2, e2.2]

theorem footprint_nodup (px py : ℚ) : (footprint px py).Nodup :=
  tilePairs_nodup _ _ _ _

theorem foldl_congr_id {α σ : Type} (f : σ → α → σ) :
    ∀ (l : List α) (init : σ), (∀ s a, a ∈ l → f s a = s) →
      l.foldl f init = init := by
  intro l
  induction l with
  | nil => intro init _; rfl
  | cons hd tl ih =>
    intro init h
    simp only [List.foldl_cons]
    rw [h init hd (List.mem_cons_self _ _)]
    exact ih init (fun s a ha => h s a (List.mem_cons_of_mem _ ha))

theorem foldl_eq_single {α σ : Type} (f : σ → α → σ) (a₀ : α) :
    ∀ (l : List α) (init : σ), a₀ ∈ l → l.Nodup →
      (∀ s a, a ∈ l → a ≠ a₀ → f s a = s) →
      l.foldl f init = f init a₀ := by
  intro l
  induction l with
  | nil => intro init h; cases h
  | cons hd tl ih =>
    intro init hmem hnd hid
    rcases List.mem_cons.1 hmem with heq | htl
    · subst heq
      simp only [List.foldl_cons]
      refine foldl_congr_id f tl (f init a₀) ?_
      intro s a ha
      refine hid s a (List.mem_cons_of_mem _ ha) ?_
      intro he
      subst he
      exact (List.nodup_cons.1 hnd).1 ha
    · have hne : hd ≠ a₀ := by
        intro he
        subst he
        exact (List.nodup_cons.1 hnd).1 htl
      simp only [List.foldl_cons]
      rw [hid init hd (List.mem_cons_self _ _) hne]
      exact ih init htl (List.nodup_cons.1 hnd).2
        (fun s a ha => hid s a (List.mem_cons_of_mem _ ha))

theorem processTile_of_passable (level : GameLevel) (pb : ℚ)
    (s : ℚ × ℚ × Bool) (q : ℤ × ℤ)
    (h : level.get_collision q.1 q.2 = TileCollision.Passable) :
    processTile level pb s q = s := by
  simp [processTile, h]

theorem resolveCollisions_passable (level : GameLevel) (pb px py : ℚ)
    (h : ∀ x y, level.get_collision x y = TileCollision.Passable) :
    resolveCollisions level pb px py = (px, py, false) := by
  unfold resolveCollisions
  exact foldl_congr_id _ _ _
    (fun s a _ => processTile_of_passable level pb s a (h a.1 a.2))

theorem update_posX (powf : ℚ → ℚ → ℚ) (level : GameLevel) (e : Events)
    (elapsed : ℚ) (p : Player) :
    (Player.update powf level e elapsed p).posX =
      (resolveCollisions level p.previous_bottom (tentativeX e elapsed p)
        (tentativeY powf e elapsed p)).1 := rfl

theorem update_posY (powf : ℚ → ℚ → ℚ) (level : GameLevel) (e : Events)
    (elapsed : ℚ) (p : Player) :
    (Player.update powf level e elapsed p).posY =
      (resolveCollisions level p.previous_bottom (tentativeX e elapsed p)
        (tentativeY powf e elapsed p)).2.1 := rfl

theorem update_on_ground (powf : ℚ → ℚ → ℚ) (level : GameLevel) (e : Events)
    (elapsed : ℚ) (p : Player) :
    (Player.update powf level e elapsed p).on_ground =
      (resolveCollisions level p.previous_bottom (tentativeX e elapsed p)
        (tentativeY powf e elapsed p)).2.2 := rfl

theorem update_velX (powf : ℚ → ℚ → ℚ) (level : GameLevel) (e : Events)
    (elapsed : ℚ) (p : Player) :
    (Player.update powf level e elapsed p).velX =
      (if p.posX = (resolveCollisions level p.previous_bottom
          (tentativeX e elapsed p) (tentativeY powf e elapsed p)).1 then 0
       else stepVelX e elapsed p.velX p.on_ground) := rfl

theorem update_velY (powf : ℚ → ℚ → ℚ) (level : GameLevel) (e : Events)
    (elapsed : ℚ) (p : Player) :
    (Player.update powf level e elapsed p).velY =
      (if p.posY = (resolveCollisions level p.previous_bottom
          (tentativeX e elapsed p) (tentativeY powf e elapsed p)).2.1 then 0
       else (stepVelY powf e elapsed p.velY p.jump_time p.on_ground
          p.is_jumping).1) := rfl

theorem update_current (powf : ℚ → ℚ → ℚ) (level : GameLevel) (e : Events)
    (elapsed : ℚ) (p : Player) :
    (Player.update powf level e elapsed p).current =
      (if dxInput e = 0 ∧ (resolveCollisions level p.previous_bottom
            (tentativeX e elapsed p) (tentativeY powf e elapsed p)).2.2 = true
       then PlayerFrame.Idle
       else if (resolveCollisions level p.previous_bottom
            (tentativeX e elapsed p) (tentativeY powf e elapsed p)).2.2 = false
       then PlayerFrame.Jump
       else PlayerFrame.Run) := rfl

/-! ### Claim C2: horizontal intent -/

/-- Claim C2, counterexample: with both left and right held, `dx` is `-1`,
not `0` as the claim states — left takes priority in the `if`/`else if`
chain of src/views/game.rs lines 320-326. -/
theorem dx_input_both_held_ne_zero :
    dxInput { key_up := false, key_down := false,
              key_left := true, key_right := true } = -1 ∧
    dxInput { key_up := false, key_down := false,
              key_left := true, key_right := true } ≠ 0 := by
  constructor
  · rfl
  · norm_num [dxInput]

/-- Claim C2, amended: the horizontal intent is `-1` whenever left is
held (left takes priority over right), `+1` when right is held and left
is not, and `0` when neither is held. -/
theorem dx_input_left_priority (e : Events) :
    (e.key_left = true → dxInput e = -1) ∧
    (e.key_left = false → e.key_right = true → dxInput e = 1) ∧
    (e.key_left = false → e.key_right = false → dxInput e = 0) := by
  refine ⟨fun h => ?_, fun h1 h2 => ?_, fun h1 h2 => ?_⟩ <;> simp [dxInput, *]

/-- Witness for `dx_input_left_priority` at a concrete input. -/
theorem dx_input_left_priority_witness :
    dxInput { key_up := false, key_down := false,
              key_left := true, key_right := true } = -1 :=
  (dx_input_left_priority _).1 rfl

/-! ### Claim C3: collision-grid bounds policy -/

/-- Claim C3: `get_collision` checks the vertical bound first (`Passable`
outside), then the horizontal bound (`Impassable` outside), and only then
reads the stored classification. -/
theorem get_collision_spec (level : GameLevel) (x y : ℤ) :
    ((y < 0 ∨ (level.height : ℤ) ≤ y) →
      level.get_collision x y = TileCollision.Passable) ∧
    (0 ≤ y → y < (level.height : ℤ) → (x < 0 ∨ (level.width : ℤ) ≤ x) →
      level.get_collision x y = TileCollision.Impassable) ∧
    (0 ≤ y → y < (level.height : ℤ) → 0 ≤ x → x < (level.width : ℤ) →
      ∀ row c, level.tiles[y.toNat]? = some row → row[x.toNat]? = some c →
        level.get_collision x y = c) := by
  refine ⟨fun hy => ?_, fun hy1 hy2 hx => ?_, fun hy1 hy2 hx1 hx2 row c h1 h2 => ?_⟩
  · unfold GameLevel.get_collision
    rw [if_pos hy]
  · unfold GameLevel.get_collision
    rw [if_neg (by omega), if_pos hx]
  · unfold GameLevel.get_collision
    rw [if_neg (by omega), if_neg (by omega), List.getD_eq_getElem?_getD,
      List.getD_eq_getElem?_getD, h1, Option.getD_some, h2, Option.getD_some]

/-- Witness for `get_collision_spec` on a concrete 2×2 grid: out-of-range
`x` gives `Impassable`, out-of-range `y` gives `Passable`, in-range reads
the stored value. -/
theorem get_collision_spec_witness :
    GameLevel.get_collision
      ⟨[[TileCollision.Passable, TileCollision.Impassable],
        [TileCollision.Platform, TileCollision.Passable]], 2, 2⟩ (-1) 0 =
      TileCollision.Impassable ∧
    GameLevel.get_collision
      ⟨[[TileCollision.Passable, TileCollision.Impassable],
        [TileCollision.Platform, TileCollision.Passable]], 2, 2⟩ 0 (-1) =
      TileCollision.Passable ∧
    GameLevel.get_collision
      ⟨[[TileCollision.Passable, TileCollision.Impassable],
        [TileCollision.Platform, TileCollision.Passable]], 2, 2⟩ 0 1 =
      TileCollision.Platform := by
  refine ⟨?_, ?_, ?_⟩
  · exact (get_collision_spec _ (-1) 0).2.1 (by decide) (by decide) (by decide)
  · exact (get_collision_spec _ 0 (-1)).1 (by decide)
  · exact (get_collision_spec _ 0 1).2.2 (by decide) (by decide) (by decide)
      (by decide) _ _ rfl rfl

/-! ### Claim C4: overlaps agrees with intersection_depth -/

/-- Claim C4: for rectangles with non-negative sizes, `overlaps` returns
`true` exactly when `intersection_depth` returns `some`. -/
theorem overlaps_iff_depth_isSome (a b : Rectangle)
    (haw : 0 ≤ a.w) (hah : 0 ≤ a.h) (hbw : 0 ≤ b.w) (hbh : 0 ≤ b.h) :
    a.overlaps b = true ↔ (a.intersection_depth b).isSome = true := by
  unfold Rectangle.overlaps Rectangle.intersection_depth Rectangle.center
  simp only [decide_eq_true_eq]
  by_cases hc : (a.w + b.w) / 2 ≤ |a.x + a.w / 2 - (b.x + b.w / 2)| ∨
      (a.h + b.h) / 2 ≤ |a.y + a.h / 2 - (b.y + b.h / 2)|
  · rw [if_pos hc]
    simp only [Option.isSome_none, Bool.false_eq_true, iff_false]
    rintro ⟨h1, h2, h3, h4⟩
    rcases hc with hx | hy
    · rcases le_abs.1 hx with h | h <;> linarith
    · rcases le_abs.1 hy with h | h <;> linarith
  · rw [if_neg hc]
    simp only [Option.isSome_some, iff_true]
    push_neg at hc
    obtain ⟨hx, hy⟩ := hc
    rw [abs_lt] at hx hy
    exact ⟨by linarith [hx.1], by linarith [hx.2], by linarith [hy.1],
      by linarith [hy.2]⟩

/-- Witness for `overlaps_iff_depth_isSome` at concrete rectangles. -/
theorem overlaps_iff_depth_isSome_witness :
    (Rectangle.overlaps ⟨0, 0, 2, 2⟩ ⟨1, 1, 2, 2⟩ = true) ↔
      ((Rectangle.intersection_depth ⟨0, 0, 2, 2⟩ ⟨1, 1, 2, 2⟩).isSome = true) :=
  overlaps_iff_depth_isSome ⟨0, 0, 2, 2⟩ ⟨1, 1, 2, 2⟩
    (by norm_num) (by norm_num) (by norm_num) (by norm_num)

/-! ### Claim C5: sign antisymmetry of intersection_depth -/

/-- Claim C5, counterexample: for two identical unit squares both
directions of `intersection_depth` return the same vector `(-2, -2)`,
which is not the negation of itself, refuting the claimed antisymmetry
when the centers coincide. -/
theorem intersection_depth_not_antisymm :
    Rectangle.intersection_depth ⟨0, 0, 2, 2⟩ ⟨0, 0, 2, 2⟩ = some (-2, -2) ∧
    ¬ ((-2 : ℚ) = -(-2 : ℚ)) := by
  constructor
  · norm_num [Rectangle.intersection_depth, Rectangle.center]
  · norm_num

/-- One-axis helper for the signed-depth computation. -/
theorem depth_axis_antisymm (c1 c2 m : ℚ) :
    (c1 ≠ c2 →
      (if 0 < c1 - c2 then m - (c1 - c2) else -m - (c1 - c2)) =
        -(if 0 < c2 - c1 then m - (c2 - c1) else -m - (c2 - c1))) ∧
    (c1 = c2 →
      (if 0 < c1 - c2 then m - (c1 - c2) else -m - (c1 - c2)) = -m) := by
  constructor
  · intro hne
    rcases lt_trichotomy c1 c2 with h | h | h
    · rw [if_neg (by linarith), if_pos (by linarith)]; ring
    · exact absurd h hne
    · rw [if_pos (by linarith), if_neg (by linarith)]; ring
  · intro he
    rw [he, sub_self, if_neg (lt_irrefl 0)]
    ring

/-- Claim C5, amended: when both depths are defined, each component of
`intersection_depth(A,B)` is the negation of the corresponding component
of `intersection_depth(B,A)` provided the two centers differ along that
axis; when the centers coincide along an axis, both sides instead return
the same value `-(w_A+w_B)/2` (resp. heights) on that axis. -/
theorem intersection_depth_antisymm (a b : Rectangle) (dab dba : ℚ × ℚ)
    (hab : a.intersection_depth b = some dab)
    (hba : b.intersection_depth a = some dba) :
    ((a.center).1 ≠ (b.center).1 → dab.1 = -dba.1) ∧
    ((a.center).1 = (b.center).1 →
      dab.1 = dba.1 ∧ dab.1 = -((a.w + b.w) / 2)) ∧
    ((a.center).2 ≠ (b.center).2 → dab.2 = -dba.2) ∧
    ((a.center).2 = (b.center).2 →
      dab.2 = dba.2 ∧ dab.2 = -((a.h + b.h) / 2)) := by
  simp only [Rectangle.intersection_depth] at hab hba
  by_cases hc1 : (a.w + b.w) / 2 ≤ |(a.center).1 - (b.center).1| ∨
      (a.h + b.h) / 2 ≤ |(a.center).2 - (b.center).2|
  · rw [if_pos hc1] at hab
    cases hab
  by_cases hc2 : (b.w + a.w) / 2 ≤ |(b.center).1 - (a.center).1| ∨
      (b.h + a.h) / 2 ≤ |(b.center).2 - (a.center).2|
  · rw [if_pos hc2] at hba
    cases hba
  rw [if_neg hc1, Option.some.injEq] at hab
  rw [if_neg hc2, Option.some.injEq] at hba
  have ha1 : dab.1 = (if 0 < (a.center).1 - (b.center).1
      then (a.w + b.w) / 2 - ((a.center).1 - (b.center).1)
      else -((a.w + b.w) / 2) - ((a.center).1 - (b.center).1)) := by
    rw [← hab]
  have ha2 : dab.2 = (if 0 < (a.center).2 - (b.center).2
      then (a.h + b.h) / 2 - ((a.center).2 - (b.center).2)
      else -((a.h + b.h) / 2) - ((a.center).2 - (b.center).2)) := by
    rw [← hab]
  have hb1 : dba.1 = (if 0 < (b.center).1 - (a.center).1
      then (b.w + a.w) / 2 - ((b.center).1 - (a.center).1)
      else -((b.w + a.w) / 2) - ((b.center).1 - (a.center).1)) := by
    rw [← hba]
  have hb2 : dba.2 = (if 0 < (b.center).2 - (a.center).2
      then (b.h + a.h) / 2 - ((b.center).2 - (a.center).2)
      else -((b.h + a.h) / 2) - ((b.center).2 - (a.center).2)) := by
    rw [← hba]
  refine ⟨fun hne => ?_, fun he => ?_, fun hne => ?_, fun he => ?_⟩
  · rw [ha1, hb1, add_comm b.w a.w]
    exact (depth_axis_antisymm (a.center).1 (b.center).1 ((a.w + b.w) / 2)).1 hne
  · constructor
    · rw [ha1, hb1,
        (depth_axis_antisymm (a.center).1 (b.center).1 ((a.w + b.w) / 2)).2 he,
        (depth_axis_antisymm (b.center).1 (a.center).1 ((b.w + a.w) / 2)).2 he.symm,
        add_comm b.w a.w]
    · rw [ha1]
      exact (depth_axis_antisymm (a.center).1 (b.center).1 ((a.w + b.w) / 2)).2 he
  · rw [ha2, hb2, add_comm b.h a.h]
    exact (depth_axis_antisymm (a.center).2 (b.center).2 ((a.h + b.h) / 2)).1 hne
  · constructor
    · rw [ha2, hb2,
        (depth_axis_antisymm (a.center).2 (b.center).2 ((a.h + b.h) / 2)).2 he,
        (depth_axis_antisymm (b.center).2 (a.center).2 ((b.h + a.h) / 2)).2 he.symm,
        add_comm b.h a.h]
    · rw [ha2]
      exact (depth_axis_antisymm (a.center).2 (b.center).2 ((a.h + b.h) / 2)).2 he

/-- Witness for `intersection_depth_antisymm` at concrete rectangles with
distinct centers. -/
theorem intersection_depth_antisymm_witness :
    ((-1 : ℚ), (-1 : ℚ)).1 = -(((1 : ℚ), (1 : ℚ)).1) :=
  (intersection_depth_antisymm ⟨0, 0, 2, 2⟩ ⟨1, 1, 2, 2⟩ (-1, -1) (1, 1)
    (by norm_num [Rectangle.intersection_depth, Rectangle.center])
    (by norm_num [Rectangle.intersection_depth, Rectangle.center])).1
    (by norm_num [Rectangle.center])

/-! ### Claim C6: fall-speed clamp after gravity integration -/

/-- Claim C6: the vertical velocity computed right after the gravity term
is added is clamped into `[-PLAYER_MAX_FALL_SPEED, PLAYER_MAX_FALL_SPEED]`
(this is the `glm::clamp` call of src/views/game.rs lines 331-335, applied
on every frame by `stepVelY`). -/
theorem gravity_clamp (velY elapsed : ℚ) :
    -PLAYER_MAX_FALL_SPEED ≤ velYAfterGravity velY elapsed ∧
      velYAfterGravity velY elapsed ≤ PLAYER_MAX_FALL_SPEED := by
  unfold velYAfterGravity clamp
  constructor
  · exact le_min (le_max_right _ _) (by norm_num [PLAYER_MAX_FALL_SPEED])
  · exact min_le_right _ _

/-! ### Claim C8: move_inside -/

/-- Claim C8: `move_inside` fails exactly when `self` is larger than
`parent` along some axis; otherwise the result keeps `self`'s size, lies
fully inside `parent`, and keeps the position on any axis that already
fit. -/
theorem move_inside_spec (self parent : Rectangle)
    (hsw : 0 ≤ self.w) (hsh : 0 ≤ self.h) :
    (self.move_inside parent = none ↔
      parent.w < self.w ∨ parent.h < self.h) ∧
    (∀ r, self.move_inside parent = some r →
      r.w = self.w ∧ r.h = self.h ∧ parent.contains r = true ∧
      (parent.x ≤ self.x → self.x + self.w ≤ parent.x + parent.w →
        r.x = self.x) ∧
      (parent.y ≤ self.y → self.y + self.h ≤ parent.y + parent.h →
        r.y = self.y)) := by
  constructor
  · unfold Rectangle.move_inside
    by_cases hc : parent.w < self.w ∨ parent.h < self.h
    · rw [if_pos hc]
      simp [hc]
    · rw [if_neg hc]
      simp [hc]
  · intro r hr
    unfold Rectangle.move_inside at hr
    by_cases hc : parent.w < self.w ∨ parent.h < self.h
    · rw [if_pos hc] at hr
      cases hr
    · rw [if_neg hc, Option.some.injEq] at hr
      push_neg at hc
      obtain ⟨hw, hh⟩ := hc
      subst hr
      refine ⟨rfl, rfl, ?_, ?_, ?_⟩
      · unfold Rectangle.contains
        rw [decide_eq_true_eq]
        simp only []
        split_ifs with h1 h2 h3 h4 <;>
          refine ⟨by linarith, by linarith, by linarith, by linarith,
            by linarith, by linarith, by linarith, by linarith⟩
      · intro h1 h2
        simp only []
        split_ifs with h3 h4 <;> linarith
      · intro h1 h2
        simp only []
        split_ifs with h3 h4 <;> linarith

/-- Witness for `move_inside_spec`: the spec's concrete scenarios.  A
40×40 box at (-10,-10) moved inside (0,0,800,600) gives (0,0,40,40); a
900×40 box does not fit; the returned box is contained in the parent. -/
theorem move_inside_spec_witness :
    Rectangle.move_inside ⟨-10, -10, 40, 40⟩ ⟨0, 0, 800, 600⟩ =
      some ⟨0, 0, 40, 40⟩ ∧
    Rectangle.move_inside ⟨0, 0, 900, 40⟩ ⟨0, 0, 800, 600⟩ = none ∧
    Rectangle.contains ⟨0, 0, 800, 600⟩ ⟨0, 0, 40, 40⟩ = true := by
  have hfit : Rectangle.move_inside ⟨-10, -10, 40, 40⟩ ⟨0, 0, 800, 600⟩ =
      some ⟨0, 0, 40, 40⟩ := by
    unfold Rectangle.move_inside
    rw [if_neg (by norm_num)]
    norm_num
  refine ⟨hfit, ?_, ?_⟩
  · exact (move_inside_spec ⟨0, 0, 900, 40⟩ ⟨0, 0, 800, 600⟩ (by norm_num)
      (by norm_num)).1.mpr (by norm_num)
  · exact ((move_inside_spec ⟨-10, -10, 40, 40⟩ ⟨0, 0, 800, 600⟩ (by norm_num)
      (by norm_num)).2 ⟨0, 0, 40, 40⟩ hfit).2.2.1

/-! ### Claim C9: animation playback clock -/

/-- Claim C9, counterexample: `add_time` corrects the accumulator by at
most one cycle per call, so with `max_time = 2` a single `add_time 5`
from `current_time = 0` leaves the accumulator at `3`, outside
`[0, max_time)` — refuting the claim that the accumulator stays in range
for every `dt`. -/
theorem add_time_escapes_range :
    ((AnimatedSprite.new 2 1).add_time 5).current_time = 3 ∧
    (AnimatedSprite.new 2 1).max_time = 2 ∧
    ¬ ((AnimatedSprite.new 2 1).add_time 5).current_time <
        (AnimatedSprite.new 2 1).max_time := by
  refine ⟨?_, ?_, ?_⟩ <;>
    norm_num [AnimatedSprite.new, AnimatedSprite.add_time]

/-- Claim C9, amended: each `AnimatedSprite` keeps its own accumulator;
`add_time` adds `dt` and corrects by at most one cycle, so the
accumulator stays in `[0, max_time)` provided the updated time does not
overshoot by a full extra cycle (`current_time + dt ∈
[-max_time, 2*max_time)`); the rendered frame index is
`floor(current_time / frame_delay) mod frames`, i.e. it equals `k`
whenever `current_time` lies in the `k`-th frame window. -/
theorem animation_clock_spec (s : AnimatedSprite) (dt : ℚ) (k : ℕ) :
    (-s.max_time ≤ s.current_time + dt →
     s.current_time + dt < 2 * s.max_time →
     0 ≤ (s.add_time dt).current_time ∧
       (s.add_time dt).current_time < s.max_time) ∧
    (0 < s.frame_delay → k < s.frames →
     (k : ℚ) * s.frame_delay ≤ s.current_time →
     s.current_time < ((k : ℚ) + 1) * s.frame_delay →
     s.currentFrame = k) := by
  constructor
  · intro h1 h2
    simp only [AnimatedSprite.add_time]
    split_ifs with hlt hge
    · constructor <;> simp only [] <;> linarith
    · constructor <;> simp only [] <;> linarith
    · constructor <;> simp only [] <;> linarith
  · intro hd hk h1 h2
    unfold AnimatedSprite.currentFrame
    rw [ratFloor_eq_of (s.current_time / s.frame_delay) (k : ℤ) ?_ ?_]
    · rw [Int.toNat_natCast]
      exact Nat.mod_eq_of_lt hk
    · rw [Int.cast_natCast, le_div_iff₀ hd]
      exact h1
    · rw [div_lt_iff₀ hd, Int.cast_natCast]
      exact h2

/-- Witness for `animation_clock_spec`: a two-frame sprite with delay 1
at time 3/2; a 3/4 step overshoots the cycle end and wraps to 1/4, and
the rendered frame is frame 1. -/
theorem animation_clock_spec_witness :
    (0 ≤ ((⟨2, 1, 3/2, 2⟩ : AnimatedSprite).add_time (3/4)).current_time ∧
     ((⟨2, 1, 3/2, 2⟩ : AnimatedSprite).add_time (3/4)).current_time <
       (⟨2, 1, 3/2, 2⟩ : AnimatedSprite).max_time) ∧
    AnimatedSprite.currentFrame ⟨2, 1, 3/2, 2⟩ = 1 :=
  ⟨(animation_clock_spec ⟨2, 1, 3/2, 2⟩ (3/4) 1).1 (by norm_num) (by norm_num),
   (animation_clock_spec ⟨2, 1, 3/2, 2⟩ (3/4) 1).2 (by norm_num) (by norm_num)
     (by norm_num) (by norm_num)⟩

/-! ### Test fixtures for concrete-input witnesses -/

/-- A trivial `powf` stand-in; no claim depends on the value of
`glm::pow`. -/
def powf0 : ℚ → ℚ → ℚ := fun _ _ => 0

/-- No key held. -/
def e0 : Events :=
  { key_up := false, key_down := false, key_left := false, key_right := false }

/-- An empty level: every lookup is vertically out of bounds, hence
`Passable`. -/
def testLevel0 : GameLevel := { tiles := [], width := 0, height := 0 }

theorem testLevel0_passable :
    ∀ x y, testLevel0.get_collision x y = TileCollision.Passable := by
  intro x y
  simp only [testLevel0, GameLevel.get_collision]
  rw [if_pos (by omega)]

/-- A free-floating player state used for zero-elapsed-time witnesses. -/
def testPlayer0 : Player :=
  { posX := 5, posY := 7, velX := 11, velY := 13, on_ground := false,
    is_jumping := false, jump_time := 0, previous_bottom := 0,
    sprites := fun _ => AnimatedSprite.new 1 1,
    current := PlayerFrame.Idle, direction := PlayerDirection.Right }

/-! ### Claim C7: velocity zeroing on blocked axes -/

/-- Claim C7: at the end of `Player::update`, if the resolved x position
equals the frame's starting x position the horizontal velocity is zeroed,
and likewise for y (src/views/game.rs lines 418-425). -/
theorem velocity_zeroing (powf : ℚ → ℚ → ℚ) (level : GameLevel) (e : Events)
    (elapsed : ℚ) (p : Player) :
    ((Player.update powf level e elapsed p).posX = p.posX →
      (Player.update powf level e elapsed p).velX = 0) ∧
    ((Player.update powf level e elapsed p).posY = p.posY →
      (Player.update powf level e elapsed p).velY = 0) := by
  constructor
  · intro h
    rw [update_posX] at h
    rw [update_velX, if_pos h.symm]
  · intro h
    rw [update_posY] at h
    rw [update_velY, if_pos h.symm]

/-- Witness for `velocity_zeroing`: with `elapsed = 0` on an empty level
the position cannot change, so both velocities are zeroed. -/
theorem velocity_zeroing_witness :
    (Player.update powf0 testLevel0 e0 0 testPlayer0).velX = 0 ∧
    (Player.update powf0 testLevel0 e0 0 testPlayer0).velY = 0 := by
  have hres : resolveCollisions testLevel0 testPlayer0.previous_bottom
      (tentativeX e0 0 testPlayer0) (tentativeY powf0 e0 0 testPlayer0) =
      (tentativeX e0 0 testPlayer0, tentativeY powf0 e0 0 testPlayer0, false) :=
    resolveCollisions_passable _ _ _ _ testLevel0_passable
  have hx : (Player.update powf0 testLevel0 e0 0 testPlayer0).posX =
      testPlayer0.posX := by
    rw [update_posX, hres]
    show tentativeX e0 0 testPlayer0 = testPlayer0.posX
    unfold tentativeX
    rw [mul_zero, add_zero]
  have hy : (Player.update powf0 testLevel0 e0 0 testPlayer0).posY =
      testPlayer0.posY := by
    rw [update_posY, hres]
    show tentativeY powf0 e0 0 testPlayer0 = testPlayer0.posY
    unfold tentativeY
    rw [mul_zero, add_zero]
  exact ⟨(velocity_zeroing powf0 testLevel0 e0 0 testPlayer0).1 hx,
    (velocity_zeroing powf0 testLevel0 e0 0 testPlayer0).2 hy⟩

/-! ### Claim C10: animation state selection -/

/-- Claim C10: the physics step selects exactly `Idle` (grounded, no
horizontal intent), `Jump` (airborne, regardless of intent) or `Run`
(grounded with intent); `Celebrate` and `Die` are never selected
(src/views/game.rs lines 427-434). -/
theorem animation_state_selection (powf : ℚ → ℚ → ℚ) (level : GameLevel)
    (e : Events) (elapsed : ℚ) (p : Player) :
    ((Player.update powf level e elapsed p).current = PlayerFrame.Idle ∨
     (Player.update powf level e elapsed p).current = PlayerFrame.Run ∨
     (Player.update powf level e elapsed p).current = PlayerFrame.Jump) ∧
    ((Player.update powf level e elapsed p).on_ground = false →
      (Player.update powf level e elapsed p).current = PlayerFrame.Jump) ∧
    ((Player.update powf level e elapsed p).on_ground = true → dxInput e = 0 →
      (Player.update powf level e elapsed p).current = PlayerFrame.Idle) ∧
    ((Player.update powf level e elapsed p).on_ground = true → dxInput e ≠ 0 →
      (Player.update powf level e elapsed p).current = PlayerFrame.Run) := by
  rw [update_current, update_on_ground]
  generalize (resolveCollisions level p.previous_bottom (tentativeX e elapsed p)
    (tentativeY powf e elapsed p)).2.2 = b
  by_cases hdx : dxInput e = 0 <;> cases b <;> simp [hdx]

/-- Witness for `animation_state_selection`: an airborne player on an
empty level is put in the `Jump` pose. -/
theorem animation_state_selection_witness :
    (Player.update powf0 testLevel0 e0 0 testPlayer0).current =
      PlayerFrame.Jump := by
  have hog : (Player.update powf0 testLevel0 e0 0 testPlayer0).on_ground =
      false := by
    rw [update_on_ground,
      resolveCollisions_passable _ _ _ _ testLevel0_passable]
  exact (animation_state_selection powf0 testLevel0 e0 0 testPlayer0).2.1 hog

/-! ### Claim C1: platform landing semantics -/

/-- Evaluating one resolution-loop iteration on a `Platform` tile the
character is falling onto from above: the previous frame's bottom edge is
at or above the tile top, and the tentative box overlaps the tile with
its center not below the tile's center.  The result is grounded with the
bottom edge snapped to the tile top, and no horizontal push. -/
theorem processTile_platform_lands (level : GameLevel) (pb px py : ℚ)
    (tx ty : ℤ)
    (hplat : level.get_collision tx ty = TileCollision.Platform)
    (hpb : pb ≤ (ty : ℚ) * TILE_HEIGHT)
    (h2 : px < (tx : ℚ) * TILE_WIDTH + TILE_WIDTH)
    (h3 : (tx : ℚ) * TILE_WIDTH < px + PLAYER_WIDTH)
    (h4 : py < (ty : ℚ) * TILE_HEIGHT + TILE_HEIGHT)
    (h5 : (ty : ℚ) * TILE_HEIGHT < py + PLAYER_HEIGHT)
    (h6 : py + PLAYER_HEIGHT / 2 ≤ (ty : ℚ) * TILE_HEIGHT + TILE_HEIGHT / 2) :
    processTile level pb (px, py, false) (tx, ty) =
      (px, (ty : ℚ) * TILE_HEIGHT - PLAYER_HEIGHT, true) := by
  simp only [processTile, tileBounds]
  rw [hplat]
  rw [if_pos (by decide : TileCollision.Platform ≠ TileCollision.Passable)]
  split
  case h_2 heq =>
    exfalso
    simp only [Rectangle.intersection_depth, Rectangle.center] at heq
    by_cases hc : (PLAYER_WIDTH + TILE_WIDTH) / 2 ≤
        |px + PLAYER_WIDTH / 2 - ((tx : ℚ) * TILE_WIDTH + TILE_WIDTH / 2)| ∨
        (PLAYER_HEIGHT + TILE_HEIGHT) / 2 ≤
        |py + PLAYER_HEIGHT / 2 - ((ty : ℚ) * TILE_HEIGHT + TILE_HEIGHT / 2)|
    · rcases hc with hcx | hcy
      · rcases le_abs.1 hcx with hA | hA <;> linarith
      · rcases le_abs.1 hcy with hA | hA <;> linarith
    · rw [if_neg hc] at heq
      cases heq
  case h_1 d heq =>
    simp only [Rectangle.intersection_depth, Rectangle.center] at heq
    have hc : ¬ ((PLAYER_WIDTH + TILE_WIDTH) / 2 ≤
        |px + PLAYER_WIDTH / 2 - ((tx : ℚ) * TILE_WIDTH + TILE_WIDTH / 2)| ∨
        (PLAYER_HEIGHT + TILE_HEIGHT) / 2 ≤
        |py + PLAYER_HEIGHT / 2 - ((ty : ℚ) * TILE_HEIGHT + TILE_HEIGHT / 2)|) := by
      push_neg
      rw [abs_lt, abs_lt]
      refine ⟨⟨by linarith, by linarith⟩, by linarith, by linarith⟩
    rw [if_neg hc, Option.some.injEq] at heq
    subst heq
    rw [if_pos (Or.inr rfl)]
    rw [show (if pb ≤ (ty : ℚ) * TILE_HEIGHT then true else (px, py, false).2.2) =
      true from if_pos hpb]
    rw [if_pos (Or.inr rfl)]
    simp only [Prod.mk.injEq]
    refine ⟨trivial, ?_, trivial⟩
    rw [if_neg (show ¬ (0 < py + PLAYER_HEIGHT / 2 -
        ((ty : ℚ) * TILE_HEIGHT + TILE_HEIGHT / 2)) from by linarith)]
    ring

/-- Evaluating one resolution-loop iteration on a `Platform` tile when
the previous frame's bottom edge was already below the tile top: the tile
neither grounds the character nor pushes it, whatever the overlap. -/
theorem processTile_platform_below (level : GameLevel) (pb px py : ℚ)
    (tx ty : ℤ)
    (hplat : level.get_collision tx ty = TileCollision.Platform)
    (hpb : ¬ pb ≤ (ty : ℚ) * TILE_HEIGHT) :
    processTile level pb (px, py, false) (tx, ty) = (px, py, false) := by
  simp only [processTile, tileBounds]
  rw [hplat]
  rw [if_pos (by decide : TileCollision.Platform ≠ TileCollision.Passable)]
  split
  case h_2 heq => rfl
  case h_1 d heq =>
    rw [if_pos (Or.inr rfl)]
    rw [show (if pb ≤ (ty : ℚ) * TILE_HEIGHT then true else (px, py, false).2.2) =
      (px, py, false).2.2 from if_neg hpb]
    have hcond : ¬ (TileCollision.Platform = TileCollision.Impassable ∨
        ((px, py, false) : ℚ × ℚ × Bool).2.2 = true) := by
      rintro (h | h)
      · cases h
      · simp at h
    rw [if_neg hcond]

/-- Claim C1: during one `Player::update`, a character falling onto a
lone `Platform` tile from above (previous frame's bottom edge strictly
above the tile top, tentative box overlapping the tile from above) ends
the frame grounded with its bottom edge resting exactly on the tile top
and with no horizontal push; if instead the previous bottom edge was
already below the tile top (overlap from the side or from below), the
tile neither grounds nor moves the character.  The tile `(tx, ty)` is
assumed to be the only non-`Passable` tile in the tentative footprint, so
the conclusion isolates the effect of that one tile. -/
theorem platform_landing (powf : ℚ → ℚ → ℚ) (level : GameLevel) (e : Events)
    (elapsed : ℚ) (p : Player) (tx ty : ℤ)
    (hplat : level.get_collision tx ty = TileCollision.Platform)
    (hmem : (tx, ty) ∈ footprint (tentativeX e elapsed p)
      (tentativeY powf e elapsed p))
    (honly : ∀ q ∈ footprint (tentativeX e elapsed p)
        (tentativeY powf e elapsed p),
      q ≠ (tx, ty) → level.get_collision q.1 q.2 = TileCollision.Passable) :
    (p.previous_bottom < (ty : ℚ) * TILE_HEIGHT →
     tentativeX e elapsed p < (tx : ℚ) * TILE_WIDTH + TILE_WIDTH →
     (tx : ℚ) * TILE_WIDTH < tentativeX e elapsed p + PLAYER_WIDTH →
     tentativeY powf e elapsed p < (ty : ℚ) * TILE_HEIGHT + TILE_HEIGHT →
     (ty : ℚ) * TILE_HEIGHT < tentativeY powf e elapsed p + PLAYER_HEIGHT →
     tentativeY powf e elapsed p + PLAYER_HEIGHT / 2 ≤
       (ty : ℚ) * TILE_HEIGHT + TILE_HEIGHT / 2 →
     (Player.update powf level e elapsed p).on_ground = true ∧
     (Player.update powf level e elapsed p).posY + PLAYER_HEIGHT =
       (ty : ℚ) * TILE_HEIGHT ∧
     (Player.update powf level e elapsed p).posX = tentativeX e elapsed p) ∧
    ((ty : ℚ) * TILE_HEIGHT < p.previous_bottom →
     (Player.update powf level e elapsed p).on_ground = false ∧
     (Player.update powf level e elapsed p).posY =
       tentativeY powf e elapsed p ∧
     (Player.update powf level e elapsed p).posX = tentativeX e elapsed p) := by
  have hres : resolveCollisions level p.previous_bottom
      (tentativeX e elapsed p) (tentativeY powf e elapsed p) =
      processTile level p.previous_bottom
        (tentativeX e elapsed p, tentativeY powf e elapsed p, false) (tx, ty) := by
    unfold resolveCollisions
    exact foldl_eq_single _ _ _ _ hmem (footprint_nodup _ _)
      (fun s q hq hne => processTile_of_passable _ _ _ _ (honly q hq hne))
  constructor
  · intro h1 h2 h3 h4 h5 h6
    rw [update_on_ground, update_posY, update_posX, hres,
      processTile_platform_lands level p.previous_bottom _ _ tx ty hplat
        (le_of_lt h1) h2 h3 h4 h5 h6]
    refine ⟨rfl, ?_, rfl⟩
    show (ty : ℚ) * TILE_HEIGHT - PLAYER_HEIGHT + PLAYER_HEIGHT =
      (ty : ℚ) * TILE_HEIGHT
    ring
  · intro h1
    rw [update_on_ground, update_posY, update_posX, hres,
      processTile_platform_below level p.previous_bottom _ _ tx ty hplat
        (by linarith)]
    exact ⟨rfl, rfl, rfl⟩

/-- A 5×6 level whose only non-`Passable` tile is a `Platform` at tile
coordinates (2, 4), i.e. world box (80, 128, 40, 32). -/
def testLevel1 : GameLevel :=
  { tiles :=
      [[TileCollision.Passable, TileCollision.Passable, TileCollision.Passable,
        TileCollision.Passable, TileCollision.Passable],
       [TileCollision.Passable, TileCollision.Passable, TileCollision.Passable,
        TileCollision.Passable, TileCollision.Passable],
       [TileCollision.Passable, TileCollision.Passable, TileCollision.Passable,
        TileCollision.Passable, TileCollision.Passable],
       [TileCollision.Passable, TileCollision.Passable, TileCollision.Passable,
        TileCollision.Passable, TileCollision.Passable],
       [TileCollision.Passable, TileCollision.Passable, TileCollision.Platform,
        TileCollision.Passable, TileCollision.Passable],
       [TileCollision.Passable, TileCollision.Passable, TileCollision.Passable,
        TileCollision.Passable, TileCollision.Passable]],
    width := 5, height := 6 }

/-- A player falling towards the platform of `testLevel1`: its previous
bottom edge (100) is above the platform top (128). -/
def testPlayerFall : Player :=
  { posX := 70, posY := 36, velX := 0, velY := 0, on_ground := false,
    is_jumping := false, jump_time := 0, previous_bottom := 100,
    sprites := fun _ => AnimatedSprite.new 1 1,
    current := PlayerFrame.Idle, direction := PlayerDirection.Right }

/-- The same player already past the platform top: its previous bottom
edge (200) is below the platform top (128). -/
def testPlayerUnder : Player := { testPlayerFall with previous_bottom := 200 }

/-- Witness for `platform_landing` on `testLevel1` with `dt = 1/10`: the
falling player (gravity gives the tentative box (70, 70, 64, 64), which
overlaps the platform) lands grounded with its bottom at 128, while the
player whose previous bottom was already below the platform top is left
airborne and unmoved. -/
theorem platform_landing_witness :
    ((Player.update powf0 testLevel1 e0 (1/10) testPlayerFall).on_ground =
      true ∧
     (Player.update powf0 testLevel1 e0 (1/10) testPlayerFall).posY +
       PLAYER_HEIGHT = ((4 : ℤ) : ℚ) * TILE_HEIGHT ∧
     (Player.update powf0 testLevel1 e0 (1/10) testPlayerFall).posX =
       tentativeX e0 (1/10) testPlayerFall) ∧
    ((Player.update powf0 testLevel1 e0 (1/10) testPlayerUnder).on_ground =
      false ∧
     (Player.update powf0 testLevel1 e0 (1/10) testPlayerUnder).posY =
       tentativeY powf0 e0 (1/10) testPlayerUnder ∧
     (Player.update powf0 testLevel1 e0 (1/10) testPlayerUnder).posX =
       tentativeX e0 (1/10) testPlayerUnder) := by
  have hx : tentativeX e0 (1/10) testPlayerFall = 70 := by
    norm_num [tentativeX, stepVelX, dxInput, clamp, min_def, max_def,
      testPlayerFall, e0, PLAYER_MOVE_ACCEL, PLAYER_AIR_DRAG,
      PLAYER_GROUND_DRAG, PLAYER_MAX_SPEED]
  have hy : tentativeY powf0 e0 (1/10) testPlayerFall = 70 := by
    norm_num [tentativeY, stepVelY, jumpStep, velYAfterGravity, clamp,
      min_def, max_def, testPlayerFall, e0, powf0, PLAYER_GRAVITY_ACCEL,
      PLAYER_MAX_FALL_SPEED]
  have hx2 : tentativeX e0 (1/10) testPlayerUnder = 70 := by
    norm_num [tentativeX, stepVelX, dxInput, clamp, min_def, max_def,
      testPlayerUnder, testPlayerFall, e0, PLAYER_MOVE_ACCEL,
      PLAYER_AIR_DRAG, PLAYER_GROUND_DRAG, PLAYER_MAX_SPEED]
  have hy2 : tentativeY powf0 e0 (1/10) testPlayerUnder = 70 := by
    norm_num [tentativeY, stepVelY, jumpStep, velYAfterGravity, clamp,
      min_def, max_def, testPlayerUnder, testPlayerFall, e0, powf0,
      PLAYER_GRAVITY_ACCEL, PLAYER_MAX_FALL_SPEED]
  have hfp : footprint (70 : ℚ) 70 = tilePairs 2 5 1 4 := by
    unfold footprint
    rw [ratFloor_eq_of ((70 : ℚ) / TILE_HEIGHT) 2
        (by norm_num [TILE_HEIGHT]) (by norm_num [TILE_HEIGHT]),
      ratCeil_eq_of (((70 : ℚ) + PLAYER_HEIGHT) / TILE_HEIGHT) 5
        (by norm_num [TILE_HEIGHT, PLAYER_HEIGHT])
        (by norm_num [TILE_HEIGHT, PLAYER_HEIGHT]),
      ratFloor_eq_of ((70 : ℚ) / TILE_WIDTH) 1
        (by norm_num [TILE_WIDTH]) (by norm_num [TILE_WIDTH]),
      ratCeil_eq_of (((70 : ℚ) + PLAYER_WIDTH) / TILE_WIDTH) 4
        (by norm_num [TILE_WIDTH, PLAYER_WIDTH])
        (by norm_num [TILE_WIDTH, PLAYER_WIDTH])]
  have hplat1 : testLevel1.get_collision 2 4 = TileCollision.Platform := by
    decide
  have hmemF : ((2 : ℤ), (4 : ℤ)) ∈ footprint
      (tentativeX e0 (1/10) testPlayerFall)
      (tentativeY powf0 e0 (1/10) testPlayerFall) := by
    rw [hx, hy, hfp]
    decide
  have honlyF : ∀ q ∈ footprint (tentativeX e0 (1/10) testPlayerFall)
      (tentativeY powf0 e0 (1/10) testPlayerFall),
      q ≠ ((2 : ℤ), (4 : ℤ)) →
      testLevel1.get_collision q.1 q.2 = TileCollision.Passable := by
    rw [hx, hy, hfp]
    decide
  have hmemU : ((2 : ℤ), (4 : ℤ)) ∈ footprint
      (tentativeX e0 (1/10) testPlayerUnder)
      (tentativeY powf0 e0 (1/10) testPlayerUnder) := by
    rw [hx2, hy2, hfp]
    decide
  have honlyU : ∀ q ∈ footprint (tentativeX e0 (1/10) testPlayerUnder)
      (tentativeY powf0 e0 (1/10) testPlayerUnder),
      q ≠ ((2 : ℤ), (4 : ℤ)) →
      testLevel1.get_collision q.1 q.2 = TileCollision.Passable := by
    rw [hx2, hy2, hfp]
    decide
  constructor
  · refine (platform_landing powf0 testLevel1 e0 (1/10) testPlayerFall 2 4
      hplat1 hmemF honlyF).1 ?_ ?_ ?_ ?_ ?_ ?_
    · norm_num [testPlayerFall, TILE_HEIGHT]
    · rw [hx]; norm_num [TILE_WIDTH]
    · rw [hx]; norm_num [TILE_WIDTH, PLAYER_WIDTH]
    · rw [hy]; norm_num [TILE_HEIGHT]
    · rw [hy]; norm_num [TILE_HEIGHT, PLAYER_HEIGHT]
    · rw [hy]; norm_num [TILE_HEIGHT, PLAYER_HEIGHT]
  · refine (platform_landing powf0 testLevel1 e0 (1/10) testPlayerUnder 2 4
      hplat1 hmemU honlyU).2 ?_
    norm_num [testPlayerUnder, testPlayerFall, TILE_HEIGHT]
